import Mathlib

/-!
# Verification of the 2048-style grid/tile merge engine

Shallow embedding of the core of the program (class Block, class Board,
assertRange, lerp, the draw-loop action dispatch) from src/index.ts.

JavaScript objects are aliased: the same Block object may be referenced by
several grid cells, and a mutation through one reference is visible through
every other.  To capture this, Block values live in a store (a list indexed
by allocation order) and grid cells hold indices into that store, mirroring
the object heap.  Coordinates and tile values are JavaScript numbers used
only integrally, embedded as Int; animation progress and offsets are
embedded as Rat.
-/

/-- The constant blockSize = 50 from the source. -/
def blockSize : Int := 50

/-- function lerp(a, b, delta) { return (b - a) * delta + a; } -/
def lerp (a b delta : ℚ) : ℚ := (b - a) * delta + a

/-- assertRange(value, min, max) throws when value < min || value >= max.
Embedded as the Bool that is true exactly when the source throws. -/
def assertRange (value lo hi : Int) : Bool :=
  decide (value < lo) || decide (hi ≤ value)

/-- class Block: value, current grid position (gridX, gridY), target grid
position (targetX, targetY), animation offsets (offsetX, offsetY).
The constructor sets targetX = gridX, targetY = gridY, offsets 0. -/
structure Block where
  value : Int
  gridX : Int
  gridY : Int
  targetX : Int
  targetY : Int
  offsetX : ℚ
  offsetY : ℚ
deriving DecidableEq, Repr

/-- new Block(value, gridX, gridY). -/
def Block.mk' (value gridX gridY : Int) : Block :=
  { value := value, gridX := gridX, gridY := gridY,
    targetX := gridX, targetY := gridY, offsetX := 0, offsetY := 0 }

/-- Block.update(delta): when delta >= 1, snap the current position to the
target and zero the offsets; otherwise interpolate the offsets. -/
def Block.update (b : Block) (delta : ℚ) : Block :=
  if 1 ≤ delta then
    { b with gridX := b.targetX, gridY := b.targetY, offsetX := 0, offsetY := 0 }
  else
    { b with
      offsetX := -lerp 0 (((b.gridX - b.targetX) * blockSize : Int) : ℚ) delta,
      offsetY := -lerp 0 (((b.gridY - b.targetY) * blockSize : Int) : ℚ) delta }

/-- class Board: cols, rows, and the cell array this.blocks[col][row].
Cells hold store indices (object references); store index i is the Block
allocated i-th. -/
structure Board where
  cols : Int
  rows : Int
  blocks : List (List (Option Nat))
  store : List Block
deriving DecidableEq, Repr

/-- new Board(cols, rows): every cell initialized to null, no blocks. -/
def Board.make (cols rows : Int) : Board :=
  { cols := cols, rows := rows,
    blocks := List.replicate cols.toNat (List.replicate rows.toNat none),
    store := [] }

/-- Raw read this.blocks[x][y] (unchecked JavaScript indexing: a missing
index reads as undefined, i.e. none). -/
def Board.cellId (brd : Board) (x y : Int) : Option Nat :=
  if 0 ≤ x ∧ 0 ≤ y then (brd.blocks.getD x.toNat []).getD y.toNat none
  else none

/-- Raw write this.blocks[x][y] = v (callers are in range). -/
def Board.setCell (brd : Board) (x y : Int) (v : Option Nat) : Board :=
  { brd with
    blocks := brd.blocks.set x.toNat ((brd.blocks.getD x.toNat []).set y.toNat v) }

/-- Overwrite the store entry for object i (a field mutation on that object,
visible through every cell that references i). -/
def Board.setStore (brd : Board) (i : Nat) (b : Block) : Board :=
  { brd with store := brd.store.set i b }

/-- Board.block(gridX, gridY) getter overload: assertRange on both
coordinates (error () models the thrown exception), then the cell content
resolved to its Block. -/
def Board.block (brd : Board) (gridX gridY : Int) : Except Unit (Option Block) :=
  if assertRange gridX 0 brd.cols || assertRange gridY 0 brd.rows then
    Except.error ()
  else
    Except.ok ((brd.cellId gridX gridY).bind (fun i => brd.store.get? i))

/-- Board.block(gridX, gridY, block) setter overload.  The range assertion
never fires on the calls the move code makes on well-formed boards; an
out-of-range call (which the source turns into a thrown exception) is
embedded as leaving the board unchanged. -/
def Board.blockSet (brd : Board) (gridX gridY : Int) (i : Nat) : Board :=
  if assertRange gridX 0 brd.cols || assertRange gridY 0 brd.rows then brd
  else brd.setCell gridX gridY (some i)

/-- The read board.block(x, y) performed inside Block.moveLeft/moveRight.
The moving object itself may be reachable through a cell (the source never
clears a vacated cell), in which case JavaScript yields the live, already
mutated object: when the cell holds selfId the current loop state is
returned rather than the stale store entry.  A range error cannot occur
here for well-formed boards (x is guarded, y is the block's own row). -/
def Board.targetRead (brd : Board) (selfId : Nat) (self : Block) (x y : Int) :
    Option Block :=
  match brd.cellId x y with
  | none => none
  | some i => if i = selfId then some self else brd.store.get? i

/-- The while loop of Block.moveLeft.  Each iteration either stops or
decrements targetX by one, so fuel targetX.toNat makes the fuel recursion
exhaust exactly when the guard targetX > 0 fails; the loop body is a
literal transcription: empty cell — slide; equal value — slide and double
(the source has no break here, so the loop continues); otherwise break. -/
def Block.moveLeftLoop (brd : Board) (selfId : Nat) : Nat → Block → Block
  | 0, b => b
  | fuel + 1, b =>
    if 0 < b.targetX then
      match brd.targetRead selfId b (b.targetX - 1) b.gridY with
      | none =>
          Block.moveLeftLoop brd selfId fuel { b with targetX := b.targetX - 1 }
      | some tb =>
          if tb.value = b.value then
            Block.moveLeftLoop brd selfId fuel
              { b with targetX := b.targetX - 1, value := b.value * 2 }
          else b
    else b

/-- Block.moveLeft(board): run the while loop on this object, then
board.block(this.targetX, this.targetY, this) — the object's new field
values become visible through every reference, and the destination cell is
bound to it (the vacated cell is NOT cleared by the source). -/
def Block.moveLeft (brd : Board) (selfId : Nat) : Board :=
  match brd.store.get? selfId with
  | none => brd
  | some b =>
    let b' := Block.moveLeftLoop brd selfId b.targetX.toNat b
    (brd.setStore selfId b').blockSet b'.targetX b'.targetY selfId

/-- The while loop of Block.moveRight (guard targetX < cols - 1, cursor
moves toward the right wall).  Fuel (cols - 1 - targetX).toNat exhausts
exactly when the guard fails. -/
def Block.moveRightLoop (brd : Board) (selfId : Nat) : Nat → Block → Block
  | 0, b => b
  | fuel + 1, b =>
    if b.targetX < brd.cols - 1 then
      match brd.targetRead selfId b (b.targetX + 1) b.gridY with
      | none =>
          Block.moveRightLoop brd selfId fuel { b with targetX := b.targetX + 1 }
      | some tb =>
          if tb.value = b.value then
            Block.moveRightLoop brd selfId fuel
              { b with targetX := b.targetX + 1, value := b.value * 2 }
          else b
    else b

/-- Block.moveRight(board). -/
def Block.moveRight (brd : Board) (selfId : Nat) : Board :=
  match brd.store.get? selfId with
  | none => brd
  | some b =>
    let b' := Block.moveRightLoop brd selfId (brd.cols - 1 - b.targetX).toNat b
    (brd.setStore selfId b').blockSet b'.targetX b'.targetY selfId

/-- Board.moveLeft(): for (x = 1; x < cols; x++) for (y = 0; y < rows; y++)
this.blocks[x][y]?.moveLeft(this), reading the live board at each step. -/
def Board.moveLeft (brd : Board) : Board :=
  ((List.range brd.cols.toNat).drop 1).foldl
    (fun acc x =>
      (List.range brd.rows.toNat).foldl
        (fun acc2 y =>
          match acc2.cellId (Int.ofNat x) (Int.ofNat y) with
          | some i => Block.moveLeft acc2 i
          | none => acc2)
        acc)
    brd

/-- Board.moveRight(): for (x = 0; x < cols - 1; x++) for (y = 0; ...). -/
def Board.moveRight (brd : Board) : Board :=
  (List.range (brd.cols - 1).toNat).foldl
    (fun acc x =>
      (List.range brd.rows.toNat).foldl
        (fun acc2 y =>
          match acc2.cellId (Int.ofNat x) (Int.ofNat y) with
          | some i => Block.moveRight acc2 i
          | none => acc2)
        acc)
    brd

/-- Board.update(delta): this.blocks[x][y]?.update(delta) over every cell;
an object referenced by several cells is updated once per reference, as in
the source. -/
def Board.update (brd : Board) (delta : ℚ) : Board :=
  (List.range brd.cols.toNat).foldl
    (fun acc x =>
      (List.range brd.rows.toNat).foldl
        (fun acc2 y =>
          match acc2.cellId (Int.ofNat x) (Int.ofNat y) with
          | some i =>
            match acc2.store.get? i with
            | some b => acc2.setStore i (b.update delta)
            | none => acc2
          | none => acc2)
        acc)
    brd

/-- The value Math.floor(Math.random() * 2 + 1) * 2 of a spawned block,
as a function of the draw r = Math.random() ∈ [0, 1). -/
def blockValue (r : ℚ) : Int := ⌊r * 2 + 1⌋ * 2

/-- The rejection-sampling loop of Board.newBlock: the source draws random
in-range coordinates until this.blocks[x][y] is empty.  The draws are made
explicit as a list; the result is the first empty draw, none when every
draw hits an occupied cell (the source keeps looping in that case). -/
def Board.findEmpty (brd : Board) : List (Int × Int) → Option (Int × Int)
  | [] => none
  | (x, y) :: rest =>
    if brd.cellId x y = none then some (x, y) else brd.findEmpty rest

/-- Board.newBlock(): place new Block(value, x, y) at the first empty drawn
cell.  Returns none when the provided draws never find an empty cell —
on a full board that happens for EVERY draw list, i.e. the source's while
loop never terminates. -/
def Board.newBlock (brd : Board) (draws : List (Int × Int)) (r : ℚ) :
    Option Board :=
  match brd.findEmpty draws with
  | none => none
  | some (x, y) =>
    let i := brd.store.length
    some (({ brd with store := brd.store ++ [Block.mk' (blockValue r) x y] }).setCell
      x y (some i))

/-- The clearing loop of Board.start(): this.blocks[x][y] = null over every
cell.  Unreferenced Block objects stay in the store, as garbage objects
stay on the JavaScript heap. -/
def Board.clearCells (brd : Board) : Board :=
  (List.range brd.cols.toNat).foldl
    (fun acc x =>
      (List.range brd.rows.toNat).foldl
        (fun acc2 y => acc2.setCell (Int.ofNat x) (Int.ofNat y) none)
        acc)
    brd

/-- Board.start(): null every cell, then newBlock() twice (each spawn with
its own draws and value randomness). -/
def Board.start (brd : Board) (d1 : List (Int × Int)) (r1 : ℚ)
    (d2 : List (Int × Int)) (r2 : ℚ) : Option Board :=
  ((brd.clearCells).newBlock d1 r1).bind (fun b1 => b1.newBlock d2 r2)

/-- The input actions of the draw loop. -/
inductive GameAction where
  | IDLE
  | MOVE_LEFT
  | MOVE_RIGHT
  | MOVE_UP
  | MOVE_DOWN
deriving DecidableEq

/-- The switch (action) statement inside draw(): the grid transformation
dispatched for each action (MOVE_UP and MOVE_DOWN both invoke
board.moveLeft(), exactly as the source does). -/
def dispatchAction : GameAction → Board → Board
  | GameAction.MOVE_LEFT, brd => brd.moveLeft
  | GameAction.MOVE_RIGHT, brd => brd.moveRight
  | GameAction.MOVE_UP, brd => brd.moveLeft
  | GameAction.MOVE_DOWN, brd => brd.moveLeft
  | GameAction.IDLE, brd => brd

/-- Tile values that are powers of two. -/
def IsPow2 (v : Int) : Prop := ∃ k : ℕ, v = 2 ^ k

/-- Every Block object on the heap has a power-of-two value. -/
def Board.AllPow2 (brd : Board) : Prop := ∀ b ∈ brd.store, IsPow2 b.value

/-- The cell array has exactly cols columns of rows cells each. -/
def Board.wellShaped (brd : Board) : Prop :=
  brd.blocks.length = brd.cols.toNat ∧ ∀ col ∈ brd.blocks, col.length = brd.rows.toNat

/-- Every cell is occupied. -/
def Board.isFull (brd : Board) : Prop :=
  ∀ col ∈ brd.blocks, ∀ c ∈ col, c.isSome

/-- 4×4 board with a single value-2 tile at column 1 of row 0. -/
def bC1 : Board :=
  { cols := 4, rows := 4,
    blocks := [[none, none, none, none], [some 0, none, none, none],
               [none, none, none, none], [none, none, none, none]],
    store := [Block.mk' 2 1 0] }

/-- 4×4 board, row 0 = [4, 2, 2, _] from the wall outward (tile ids 0, 1, 2). -/
def bC2 : Board :=
  { cols := 4, rows := 4,
    blocks := [[some 0, none, none, none], [some 1, none, none, none],
               [some 2, none, none, none], [none, none, none, none]],
    store := [Block.mk' 4 0 0, Block.mk' 2 1 0, Block.mk' 2 2 0] }

/-- 4×4 board, row 0 = [2, _, 2, 4] from the wall outward (tile ids 0, 1, 2),
the configuration of the spec's worked example. -/
def bC3 : Board :=
  { cols := 4, rows := 4,
    blocks := [[some 0, none, none, none], [none, none, none, none],
               [some 1, none, none, none], [some 2, none, none, none]],
    store := [Block.mk' 2 0 0, Block.mk' 2 2 0, Block.mk' 4 3 0] }

/-- Full 1×1 board. -/
def bC4 : Board :=
  { cols := 1, rows := 1, blocks := [[some 0]], store := [Block.mk' 2 0 0] }

/-- A tile whose move resolution just set a new target column (from 1 to 0)
and whose offsets are still the settled zeros. -/
def bC5 : Block :=
  { value := 2, gridX := 1, gridY := 0, targetX := 0, targetY := 0,
    offsetX := 0, offsetY := 0 }

/-- 4×4 board, row 0 = [2, 2, 2, 2] (tile ids 0, 1, 2, 3). -/
def bC7 : Board :=
  { cols := 4, rows := 4,
    blocks := [[some 0, none, none, none], [some 1, none, none, none],
               [some 2, none, none, none], [some 3, none, none, none]],
    store := [Block.mk' 2 0 0, Block.mk' 2 1 0, Block.mk' 2 2 0, Block.mk' 2 3 0] }

/-- 1×2 board with a value-2 tile at (0, 0) and an empty cell at (0, 1). -/
def bC8 : Board :=
  { cols := 1, rows := 2, blocks := [[some 0, none]], store := [Block.mk' 2 0 0] }

/-- Empty 4×4 board. -/
def bC9 : Board := Board.make 4 4

/-- Claim C1 (code bug): after Board.moveLeft on a board whose only tile sat
at column 1, the tile (id 0) has moved to column 0, yet BOTH cell (0,0) and
cell (1,0) still reference it — Block.moveLeft binds the destination cell
but never clears the vacated cell, so an occupied cell count of one per
tile does not hold once the move completes. -/
theorem C1_stale_reference :
    (bC1.moveLeft).cellId 0 0 = some 0 ∧
    (bC1.moveLeft).cellId 1 0 = some 0 ∧
    ((bC1.moveLeft).store.get? 0).map Block.targetX = some 0 := by
  decide

/-- Claim C2 counterexample: on row [4, 2, 2, _], one Board.moveLeft takes
the tile with id 2 from value 2 to value 8 (and all the way to the wall):
its value doubled TWICE inside a single resolveMove, so the merge case does
not stop the per-tile advance loop. -/
theorem C2_counterexample :
    (bC2.store.get? 2).map Block.value = some 2 ∧
    ((bC2.moveLeft).store.get? 2).map Block.value = some 8 ∧
    ((bC2.moveLeft).store.get? 2).map Block.targetX = some 0 := by
  decide

/-- Claim C3 (code bug): on row [2, _, 2, 4] the spec example expects
resolveMove(left) to produce [4, 4, _, _]; the code instead leaves cell 1
holding a tile of value 8 (the 4 merged with the stale reference the moved
2-tile left behind in cell 2), and cells 2 and 3 still occupied by stale
references. -/
theorem C3_example_fails :
    (bC3.moveLeft).cellId 0 0 = some 1 ∧
    ((bC3.moveLeft).store.get? 1).map Block.value = some 4 ∧
    (bC3.moveLeft).cellId 1 0 = some 2 ∧
    ((bC3.moveLeft).store.get? 2).map Block.value = some 8 ∧
    (bC3.moveLeft).cellId 2 0 = some 1 ∧
    (bC3.moveLeft).cellId 3 0 = some 2 := by
  decide

/-- Claim C6: the draw-loop switch sends MOVE_UP and MOVE_DOWN to exactly
the same grid transformation as MOVE_LEFT — board.moveLeft() — so vertical
moves are routed to the left resolution path. -/
theorem C6_up_down_routed_left (brd : Board) :
    dispatchAction GameAction.MOVE_UP brd = dispatchAction GameAction.MOVE_LEFT brd ∧
    dispatchAction GameAction.MOVE_DOWN brd = dispatchAction GameAction.MOVE_LEFT brd :=
  ⟨rfl, rfl⟩

/-- Claim C7 (code bug): applying Board.moveRight twice from row
[2, 2, 2, 2] does NOT equal applying it once.  The first pass leaves tile 0
with value 4 and a stale duplicate of tile 2 in cell (2,0); the second pass
merges tile 0 with that stale duplicate, changing cell (2,0) and doubling
tile 0 to value 8 — a second identical move does produce further change. -/
theorem C7_not_idempotent :
    (bC7.moveRight).moveRight ≠ bC7.moveRight ∧
    (bC7.moveRight).cellId 2 0 = some 2 ∧
    ((bC7.moveRight).store.get? 0).map Block.value = some 4 ∧
    ((bC7.moveRight).moveRight).cellId 2 0 = some 0 ∧
    (((bC7.moveRight).moveRight).store.get? 0).map Block.value = some 8 := by
  decide

/-- Claim C5 counterexample: a tile whose target was just moved (current
column 1, target column 0, offsets still zero) keeps visualOffset (0, 0)
after update is applied with progress t = 0, although currentPosition and
targetPosition differ — the claimed invariant fails at t = 0. -/
theorem C5_counterexample :
    (bC5.update 0).offsetX = 0 ∧ (bC5.update 0).offsetY = 0 ∧
    (bC5.update 0).gridX ≠ (bC5.update 0).targetX := by
  have h : ¬ (1 : ℚ) ≤ 0 := by norm_num
  simp [bC5, Block.update, lerp, h]

/-- Claim C5 amended: after update(t), the visual offset is zero iff the
current position equals the target position OR the applied progress value
is zero (at t = 0 the interpolated offset vanishes even while the tile is
mid-transition). -/
theorem C5_offset_iff (b : Block) (t : ℚ) :
    ((b.update t).offsetX = 0 ∧ (b.update t).offsetY = 0) ↔
      (((b.update t).gridX = (b.update t).targetX ∧
        (b.update t).gridY = (b.update t).targetY) ∨ t = 0) := by
  by_cases h : (1 : ℚ) ≤ t
  · simp [Block.update, h]
  · have h50 : ((50 : Int) : ℚ) ≠ 0 := by norm_num
    simp only [Block.update, if_neg h, blockSize]
    simp only [sub_zero, add_zero, neg_eq_zero, lerp, zero_mul, mul_eq_zero,
      Int.cast_eq_zero, sub_eq_zero]
    constructor
    · rintro ⟨hx, hy⟩
      rcases hx with (hx | hx) | ht
      · rcases hy with (hy | hy) | ht
        · exact Or.inl ⟨hx, hy⟩
        · exact absurd hy (by norm_num)
        · exact Or.inr ht
      · exact absurd hx (by norm_num)
      · exact Or.inr ht
    · rintro (⟨hx, hy⟩ | ht)
      · exact ⟨Or.inl (Or.inl hx), Or.inl (Or.inl hy)⟩
      · exact ⟨Or.inr ht, Or.inr ht⟩

/-- Claim C8: Board.block(gridX, gridY) fails with a range error exactly
when a coordinate is outside [0, cols) × [0, rows) (never a silent clamp);
within bounds it returns none on an empty cell and the occupying tile on an
occupied cell. -/
theorem C8_cellAt (brd : Board) (x y : Int) :
    (brd.block x y = Except.error () ↔
      x < 0 ∨ brd.cols ≤ x ∨ y < 0 ∨ brd.rows ≤ y) ∧
    (0 ≤ x → x < brd.cols → 0 ≤ y → y < brd.rows → brd.cellId x y = none →
      brd.block x y = Except.ok none) ∧
    (∀ i blk, 0 ≤ x → x < brd.cols → 0 ≤ y → y < brd.rows →
      brd.cellId x y = some i → brd.store.get? i = some blk →
      brd.block x y = Except.ok (some blk)) := by
  have hcond : ((assertRange x 0 brd.cols || assertRange y 0 brd.rows) = true) ↔
      (x < 0 ∨ brd.cols ≤ x ∨ y < 0 ∨ brd.rows ≤ y) := by
    simp [assertRange, or_assoc]
  refine ⟨?_, ?_, ?_⟩
  · unfold Board.block
    by_cases hb : x < 0 ∨ brd.cols ≤ x ∨ y < 0 ∨ brd.rows ≤ y
    · rw [if_pos (hcond.mpr hb)]
      simpa using hb
    · rw [if_neg (fun hc => hb (hcond.mp hc))]
      simp [hb]
  · intro h1 h2 h3 h4 hcell
    unfold Board.block
    rw [if_neg (fun hc => by rcases hcond.mp hc with h | h | h | h <;> omega)]
    rw [hcell]
    rfl
  · intro i blk h1 h2 h3 h4 hcell hstore
    unfold Board.block
    rw [if_neg (fun hc => by rcases hcond.mp hc with h | h | h | h <;> omega)]
    rw [hcell]
    simpa using hstore

/-- Claim C8 witness: on the concrete 1×2 board bC8, column -1 raises the
range error, the in-bounds empty cell (0,1) reads as none, and the occupied
cell (0,0) returns its tile. -/
theorem C8_cellAt_witness :
    bC8.block (-1) 0 = Except.error () ∧
    bC8.block 0 1 = Except.ok none ∧
    bC8.block 0 0 = Except.ok (some (Block.mk' 2 0 0)) :=
  ⟨(C8_cellAt bC8 (-1) 0).1.mpr (Or.inl (by decide)),
   (C8_cellAt bC8 0 1).2.1 (by decide) (by decide) (by decide) (by decide) (by decide),
   (C8_cellAt bC8 0 0).2.2 0 (Block.mk' 2 0 0) (by decide) (by decide) (by decide)
     (by decide) (by decide) (by decide)⟩

theorem foldlPreserve {α β : Type} (P : α → Prop) {f : α → β → α}
    (hstep : ∀ a b, P a → P (f a b)) :
    ∀ (l : List β) (init : α), P init → P (l.foldl f init)
  | [], _, h => h
  | x :: xs, init, h => foldlPreserve P hstep xs (f init x) (hstep init x h)

theorem map_set_eq {α β : Type} (f : α → β) :
    ∀ (l : List α) (i : Nat) (b : α),
      (∀ a, l.get? i = some a → f b = f a) → (l.set i b).map f = l.map f
  | [], _, _, _ => rfl
  | x :: xs, 0, b, h => by
    rw [List.set_cons_zero, List.map, List.map, h x rfl]
  | x :: xs, n + 1, b, h => by
    rw [List.set_cons_succ, List.map, List.map,
      map_set_eq f xs n b (fun a ha => h a ha)]

theorem setCell_store (brd : Board) (x y : Int) (v : Option Nat) :
    (brd.setCell x y v).store = brd.store := rfl

theorem blockSet_store (brd : Board) (x y : Int) (i : Nat) :
    (brd.blockSet x y i).store = brd.store := by
  unfold Board.blockSet
  split <;> rfl

theorem moveLeftLoop_rows (brd : Board) (selfId : Nat) :
    ∀ (fuel : Nat) (b : Block),
      (Block.moveLeftLoop brd selfId fuel b).gridY = b.gridY ∧
      (Block.moveLeftLoop brd selfId fuel b).targetY = b.targetY := by
  intro fuel
  induction fuel with
  | zero => exact fun b => ⟨rfl, rfl⟩
  | succ n ih =>
    intro b
    simp only [Block.moveLeftLoop]
    split
    · split
      · exact ih _
      · split
        · exact ih _
        · exact ⟨rfl, rfl⟩
    · exact ⟨rfl, rfl⟩

theorem moveRightLoop_rows (brd : Board) (selfId : Nat) :
    ∀ (fuel : Nat) (b : Block),
      (Block.moveRightLoop brd selfId fuel b).gridY = b.gridY ∧
      (Block.moveRightLoop brd selfId fuel b).targetY = b.targetY := by
  intro fuel
  induction fuel with
  | zero => exact fun b => ⟨rfl, rfl⟩
  | succ n ih =>
    intro b
    simp only [Block.moveRightLoop]
    split
    · split
      · exact ih _
      · split
        · exact ih _
        · exact ⟨rfl, rfl⟩
    · exact ⟨rfl, rfl⟩

theorem blockMoveLeft_rows (brd : Board) (i : Nat) :
    (Block.moveLeft brd i).store.map Block.gridY = brd.store.map Block.gridY ∧
    (Block.moveLeft brd i).store.map Block.targetY = brd.store.map Block.targetY := by
  unfold Block.moveLeft
  split
  · exact ⟨rfl, rfl⟩
  · rename_i b hget
    constructor
    · rw [blockSet_store]
      exact map_set_eq _ _ _ _ (fun a ha => by
        rw [hget] at ha
        cases ha
        exact (moveLeftLoop_rows brd i _ b).1)
    · rw [blockSet_store]
      exact map_set_eq _ _ _ _ (fun a ha => by
        rw [hget] at ha
        cases ha
        exact (moveLeftLoop_rows brd i _ b).2)

theorem blockMoveRight_rows (brd : Board) (i : Nat) :
    (Block.moveRight brd i).store.map Block.gridY = brd.store.map Block.gridY ∧
    (Block.moveRight brd i).store.map Block.targetY = brd.store.map Block.targetY := by
  unfold Block.moveRight
  split
  · exact ⟨rfl, rfl⟩
  · rename_i b hget
    constructor
    · rw [blockSet_store]
      exact map_set_eq _ _ _ _ (fun a ha => by
        rw [hget] at ha
        cases ha
        exact (moveRightLoop_rows brd i _ b).1)
    · rw [blockSet_store]
      exact map_set_eq _ _ _ _ (fun a ha => by
        rw [hget] at ha
        cases ha
        exact (moveRightLoop_rows brd i _ b).2)

theorem boardMoveLeft_rows (brd : Board) :
    brd.moveLeft.store.map Block.gridY = brd.store.map Block.gridY ∧
    brd.moveLeft.store.map Block.targetY = brd.store.map Block.targetY := by
  unfold Board.moveLeft
  refine foldlPreserve
    (fun acc : Board => acc.store.map Block.gridY = brd.store.map Block.gridY ∧
      acc.store.map Block.targetY = brd.store.map Block.targetY)
    (fun acc x hacc => ?_) _ _ ⟨rfl, rfl⟩
  refine foldlPreserve
    (fun acc2 : Board => acc2.store.map Block.gridY = brd.store.map Block.gridY ∧
      acc2.store.map Block.targetY = brd.store.map Block.targetY)
    (fun acc2 y hacc2 => ?_) _ _ hacc
  split
  · rename_i j _
    exact ⟨(blockMoveLeft_rows acc2 j).1.trans hacc2.1,
           (blockMoveLeft_rows acc2 j).2.trans hacc2.2⟩
  · exact hacc2

theorem boardMoveRight_rows (brd : Board) :
    brd.moveRight.store.map Block.gridY = brd.store.map Block.gridY ∧
    brd.moveRight.store.map Block.targetY = brd.store.map Block.targetY := by
  unfold Board.moveRight
  refine foldlPreserve
    (fun acc : Board => acc.store.map Block.gridY = brd.store.map Block.gridY ∧
      acc.store.map Block.targetY = brd.store.map Block.targetY)
    (fun acc x hacc => ?_) _ _ ⟨rfl, rfl⟩
  refine foldlPreserve
    (fun acc2 : Board => acc2.store.map Block.gridY = brd.store.map Block.gridY ∧
      acc2.store.map Block.targetY = brd.store.map Block.targetY)
    (fun acc2 y hacc2 => ?_) _ _ hacc
  split
  · rename_i j _
    exact ⟨(blockMoveRight_rows acc2 j).1.trans hacc2.1,
           (blockMoveRight_rows acc2 j).2.trans hacc2.2⟩
  · exact hacc2

/-- Claim C10: horizontal move resolution never changes any tile's row
coordinates — after Block.moveLeft/moveRight on any object and after the
board-wide Board.moveLeft/moveRight sweeps, the list of all tiles' current
rows (gridY) and target rows (targetY) is unchanged. -/
theorem C10_rows (brd : Board) (i : Nat) :
    ((Block.moveLeft brd i).store.map Block.gridY = brd.store.map Block.gridY ∧
     (Block.moveLeft brd i).store.map Block.targetY = brd.store.map Block.targetY) ∧
    ((Block.moveRight brd i).store.map Block.gridY = brd.store.map Block.gridY ∧
     (Block.moveRight brd i).store.map Block.targetY = brd.store.map Block.targetY) ∧
    (brd.moveLeft.store.map Block.gridY = brd.store.map Block.gridY ∧
     brd.moveLeft.store.map Block.targetY = brd.store.map Block.targetY) ∧
    (brd.moveRight.store.map Block.gridY = brd.store.map Block.gridY ∧
     brd.moveRight.store.map Block.targetY = brd.store.map Block.targetY) :=
  ⟨blockMoveLeft_rows brd i, blockMoveRight_rows brd i,
   boardMoveLeft_rows brd, boardMoveRight_rows brd⟩

theorem isPow2_double {v : Int} (h : IsPow2 v) : IsPow2 (v * 2) := by
  obtain ⟨k, hk⟩ := h
  exact ⟨k + 1, by rw [hk, pow_succ]⟩

theorem moveLeftLoop_pow2 (brd : Board) (selfId : Nat) :
    ∀ (fuel : Nat) (b : Block),
      IsPow2 b.value → IsPow2 (Block.moveLeftLoop brd selfId fuel b).value := by
  intro fuel
  induction fuel with
  | zero => exact fun b hb => hb
  | succ n ih =>
    intro b hb
    simp only [Block.moveLeftLoop]
    split
    · split
      · exact ih _ hb
      · split
        · exact ih _ (isPow2_double hb)
        · exact hb
    · exact hb

theorem moveRightLoop_pow2 (brd : Board) (selfId : Nat) :
    ∀ (fuel : Nat) (b : Block),
      IsPow2 b.value → IsPow2 (Block.moveRightLoop brd selfId fuel b).value := by
  intro fuel
  induction fuel with
  | zero => exact fun b hb => hb
  | succ n ih =>
    intro b hb
    simp only [Block.moveRightLoop]
    split
    · split
      · exact ih _ hb
      · split
        · exact ih _ (isPow2_double hb)
        · exact hb
    · exact hb

theorem allPow2_of_store_eq {b1 b2 : Board} (hs : b1.store = b2.store)
    (h : b2.AllPow2) : b1.AllPow2 := by
  intro x hx
  exact h x (hs ▸ hx)

theorem allPow2_setStore {brd : Board} {i : Nat} {b : Block}
    (h : brd.AllPow2) (hb : IsPow2 b.value) : (brd.setStore i b).AllPow2 := by
  intro x hx
  rcases List.mem_or_eq_of_mem_set hx with hx' | rfl
  · exact h x hx'
  · exact hb

theorem blockMoveLeft_pow2 {brd : Board} (i : Nat) (h : brd.AllPow2) :
    (Block.moveLeft brd i).AllPow2 := by
  unfold Block.moveLeft
  split
  · exact h
  · rename_i b hget
    exact allPow2_of_store_eq (blockSet_store _ _ _ _)
      (allPow2_setStore h (moveLeftLoop_pow2 brd i _ b (h b (List.get?_mem hget))))

theorem blockMoveRight_pow2 {brd : Board} (i : Nat) (h : brd.AllPow2) :
    (Block.moveRight brd i).AllPow2 := by
  unfold Block.moveRight
  split
  · exact h
  · rename_i b hget
    exact allPow2_of_store_eq (blockSet_store _ _ _ _)
      (allPow2_setStore h (moveRightLoop_pow2 brd i _ b (h b (List.get?_mem hget))))

theorem boardMoveLeft_pow2 {brd : Board} (h : brd.AllPow2) :
    brd.moveLeft.AllPow2 := by
  unfold Board.moveLeft
  refine foldlPreserve Board.AllPow2 (fun acc x hacc => ?_) _ _ h
  refine foldlPreserve Board.AllPow2 (fun acc2 y hacc2 => ?_) _ _ hacc
  split
  · exact blockMoveLeft_pow2 _ hacc2
  · exact hacc2

theorem boardMoveRight_pow2 {brd : Board} (h : brd.AllPow2) :
    brd.moveRight.AllPow2 := by
  unfold Board.moveRight
  refine foldlPreserve Board.AllPow2 (fun acc x hacc => ?_) _ _ h
  refine foldlPreserve Board.AllPow2 (fun acc2 y hacc2 => ?_) _ _ hacc
  split
  · exact blockMoveRight_pow2 _ hacc2
  · exact hacc2

theorem blockUpdate_value (b : Block) (delta : ℚ) :
    (b.update delta).value = b.value := by
  unfold Block.update
  split <;> rfl

theorem boardUpdate_pow2 {brd : Board} (delta : ℚ) (h : brd.AllPow2) :
    (brd.update delta).AllPow2 := by
  unfold Board.update
  refine foldlPreserve Board.AllPow2 (fun acc x hacc => ?_) _ _ h
  refine foldlPreserve Board.AllPow2 (fun acc2 y hacc2 => ?_) _ _ hacc
  split
  · split
    · rename_i i _ b hget
      refine allPow2_setStore hacc2 ?_
      rw [blockUpdate_value]
      exact hacc2 b (List.get?_mem hget)
    · exact hacc2
  · exact hacc2

theorem blockValue_mem (r : ℚ) (h0 : 0 ≤ r) (h1 : r < 1) :
    blockValue r = 2 ∨ blockValue r = 4 := by
  unfold blockValue
  have hl : (1 : ℤ) ≤ ⌊r * 2 + 1⌋ := Int.le_floor.mpr (by push_cast; linarith)
  have hu : ⌊r * 2 + 1⌋ < 3 := Int.floor_lt.mpr (by push_cast; linarith)
  have h12 : ⌊r * 2 + 1⌋ = 1 ∨ ⌊r * 2 + 1⌋ = 2 := by omega
  rcases h12 with h | h <;> rw [h] <;> norm_num

theorem newBlock_pow2 {brd : Board} {draws : List (Int × Int)} {r : ℚ}
    {brd' : Board} (h : brd.AllPow2) (h0 : 0 ≤ r) (h1 : r < 1)
    (hres : brd.newBlock draws r = some brd') : brd'.AllPow2 := by
  unfold Board.newBlock at hres
  split at hres
  · cases hres
  · rename_i x y _
    cases hres
    refine allPow2_of_store_eq (setCell_store _ _ _ _) ?_
    intro b hb
    rcases List.mem_append.mp hb with hb' | hb'
    · exact h b hb'
    · rw [List.mem_singleton] at hb'
      subst hb'
      rcases blockValue_mem r h0 h1 with hv | hv
      · exact ⟨1, by rw [Block.mk', hv]; norm_num⟩
      · exact ⟨2, by rw [Block.mk', hv]; norm_num⟩

theorem clearCells_store (brd : Board) : brd.clearCells.store = brd.store := by
  unfold Board.clearCells
  refine foldlPreserve (fun acc : Board => acc.store = brd.store)
    (fun acc x hacc => ?_) _ _ rfl
  refine foldlPreserve (fun acc2 : Board => acc2.store = brd.store)
    (fun acc2 y hacc2 => ?_) _ _ hacc
  exact hacc2

theorem start_pow2 {brd : Board} {d1 d2 : List (Int × Int)} {r1 r2 : ℚ}
    {brd' : Board} (h : brd.AllPow2) (h01 : 0 ≤ r1) (h11 : r1 < 1)
    (h02 : 0 ≤ r2) (h12 : r2 < 1)
    (hres : brd.start d1 r1 d2 r2 = some brd') : brd'.AllPow2 := by
  unfold Board.start at hres
  cases hb1 : brd.clearCells.newBlock d1 r1 with
  | none => rw [hb1] at hres; cases hres
  | some b1 =>
    rw [hb1] at hres
    exact newBlock_pow2
      (newBlock_pow2 (allPow2_of_store_eq (clearCells_store brd) h) h01 h11 hb1)
      h02 h12 hres

/-- Claim C9: every tile value is always a power of two — a spawned tile's
value is 2 or 4, and moveLeft, moveRight, update (advance), newBlock
(spawn) and start (reset) all preserve the property that every Block on
the heap has a power-of-two value (the only value change anywhere is the
doubling in the merge branch of the move loops). -/
theorem C9_pow2 (brd : Board) (h : brd.AllPow2) :
    (∀ r : ℚ, 0 ≤ r → r < 1 → blockValue r = 2 ∨ blockValue r = 4) ∧
    brd.moveLeft.AllPow2 ∧
    brd.moveRight.AllPow2 ∧
    (∀ t : ℚ, (brd.update t).AllPow2) ∧
    (∀ (draws : List (Int × Int)) (r : ℚ) (brd' : Board),
      0 ≤ r → r < 1 → brd.newBlock draws r = some brd' → brd'.AllPow2) ∧
    (∀ (d1 d2 : List (Int × Int)) (r1 r2 : ℚ) (brd' : Board),
      0 ≤ r1 → r1 < 1 → 0 ≤ r2 → r2 < 1 →
      brd.start d1 r1 d2 r2 = some brd' → brd'.AllPow2) :=
  ⟨fun r h0 h1 => blockValue_mem r h0 h1,
   boardMoveLeft_pow2 h,
   boardMoveRight_pow2 h,
   fun t => boardUpdate_pow2 t h,
   fun _ _ _ h0 h1 hres => newBlock_pow2 h h0 h1 hres,
   fun _ _ _ _ _ h01 h11 h02 h12 hres => start_pow2 h h01 h11 h02 h12 hres⟩

/-- The board bC9.newBlock [(0, 0)] 0 evaluates to (spawn at the empty cell
(0,0) with value blockValue 0). -/
def bC9' : Board :=
  ({ bC9 with store := bC9.store ++ [Block.mk' (blockValue 0) 0 0] }).setCell
    0 0 (some bC9.store.length)

/-- Claim C9 witness: the empty board satisfies AllPow2, and so do the
boards obtained from it by moveLeft and by a concrete spawn. -/
theorem C9_witness : bC9.AllPow2 ∧ bC9.moveLeft.AllPow2 ∧ bC9'.AllPow2 := by
  have h : bC9.AllPow2 := by
    intro b hb
    simp [bC9, Board.make] at hb
  exact ⟨h, (C9_pow2 bC9 h).2.1,
    (C9_pow2 bC9 h).2.2.2.2.1 [(0, 0)] 0 bC9' (le_refl 0) (by norm_num) rfl⟩

/-- Claim C2 amended: when the advance loop of Block.moveLeft inspects the
cell one step toward the wall and finds a tile of equal value, it moves the
target cursor one more step toward the wall and doubles the moving tile's
value, but it does NOT stop: the loop CONTINUES from the advanced, doubled
state (running the whole loop equals running it on the advanced, doubled
block), so a tile may merge again in the same resolveMove. -/
theorem C2_merge_continues (brd : Board) (selfId : Nat) (b tb : Block)
    (h1 : 0 < b.targetX)
    (h2 : brd.targetRead selfId b (b.targetX - 1) b.gridY = some tb)
    (h3 : tb.value = b.value) :
    Block.moveLeftLoop brd selfId b.targetX.toNat b =
      Block.moveLeftLoop brd selfId (b.targetX - 1).toNat
        { b with targetX := b.targetX - 1, value := b.value * 2 } := by
  have hn : b.targetX.toNat = (b.targetX - 1).toNat + 1 := by omega
  rw [hn]
  simp only [Block.moveLeftLoop, if_pos h1, h2, h3, if_pos rfl, if_true]

/-- Claim C2 amended witness: the concrete merge step of tile 2 (value 2 at
column 2) against tile 1 (value 2 at column 1) on board bC2 continues the
loop with cursor 1 and doubled value 4. -/
theorem C2_merge_continues_witness :
    0 < (Block.mk' 2 2 0).targetX ∧
    bC2.targetRead 2 (Block.mk' 2 2 0) ((Block.mk' 2 2 0).targetX - 1)
      (Block.mk' 2 2 0).gridY = some (Block.mk' 2 1 0) ∧
    Block.moveLeftLoop bC2 2 (Block.mk' 2 2 0).targetX.toNat (Block.mk' 2 2 0) =
      Block.moveLeftLoop bC2 2 ((Block.mk' 2 2 0).targetX - 1).toNat
        { Block.mk' 2 2 0 with targetX := (Block.mk' 2 2 0).targetX - 1,
                               value := (Block.mk' 2 2 0).value * 2 } :=
  ⟨by decide, by decide,
   C2_merge_continues bC2 2 (Block.mk' 2 2 0) (Block.mk' 2 1 0)
     (by decide) (by decide) (by decide)⟩

theorem full_cellId {brd : Board} (hw : brd.wellShaped) (hf : brd.isFull)
    {x y : Int} (hx0 : 0 ≤ x) (hx : x < brd.cols) (hy0 : 0 ≤ y)
    (hy : y < brd.rows) : brd.cellId x y ≠ none := by
  unfold Board.cellId
  rw [if_pos ⟨hx0, hy0⟩]
  have hxlt : x.toNat < brd.blocks.length := by
    rw [hw.1]; omega
  rw [List.getD_eq_getElem _ _ hxlt]
  have hcolmem : brd.blocks[x.toNat] ∈ brd.blocks := List.getElem_mem hxlt
  have hylt : y.toNat < brd.blocks[x.toNat].length := by
    rw [hw.2 _ hcolmem]; omega
  rw [List.getD_eq_getElem _ _ hylt]
  have hsome := hf _ hcolmem _ (List.getElem_mem hylt)
  intro hnone
  rw [hnone] at hsome
  cases hsome

/-- Claim C4 (code bug): on a completely full well-shaped grid, the
rejection-sampling loop of Board.newBlock rejects EVERY sequence of
in-range random draws — the source's while loop never finds an empty cell
and therefore never terminates, and no GridFullError exists in the code. -/
theorem C4_spawn_full_diverges (brd : Board) (hw : brd.wellShaped)
    (hf : brd.isFull) (draws : List (Int × Int))
    (hd : ∀ p ∈ draws, 0 ≤ p.1 ∧ p.1 < brd.cols ∧ 0 ≤ p.2 ∧ p.2 < brd.rows)
    (r : ℚ) : brd.newBlock draws r = none := by
  have hfe : ∀ ds : List (Int × Int),
      (∀ p ∈ ds, 0 ≤ p.1 ∧ p.1 < brd.cols ∧ 0 ≤ p.2 ∧ p.2 < brd.rows) →
      brd.findEmpty ds = none := by
    intro ds
    induction ds with
    | nil => intro _; rfl
    | cons p rest ih =>
      intro hd'
      obtain ⟨x, y⟩ := p
      obtain ⟨hh1, hh2, hh3, hh4⟩ := hd' (x, y) (List.mem_cons_self _ _)
      simp only [Board.findEmpty]
      rw [if_neg (full_cellId hw hf hh1 hh2 hh3 hh4)]
      exact ih (fun q hq => hd' q (List.mem_cons_of_mem _ hq))
  unfold Board.newBlock
  rw [hfe draws hd]

/-- Claim C4 witness: on the concrete full 1×1 board, spawning with any of
the drawn coordinates (0,0), (0,0) finds no empty cell. -/
theorem C4_witness :
    bC4.wellShaped ∧ bC4.isFull ∧ bC4.newBlock [(0, 0), (0, 0)] 0 = none :=
  ⟨by unfold Board.wellShaped; decide, by unfold Board.isFull; decide,
   C4_spawn_full_diverges bC4 (by unfold Board.wellShaped; decide)
     (by unfold Board.isFull; decide) [(0, 0), (0, 0)] (by decide) 0⟩
